import Mathlib

/-!
# Verification of the cop_oscillator core

Shallow embedding of the repository's core logic: the hex-grid adjacency
rule, the random connected-graph generators (restart variant from
`planar.py`, safe variant from `11x11_imp/planar.py`), the enable-signal
synthesis inside `write_testbench`, and the netlist parsers of
`Generation_Visualisation/verification.py`.

Python integers are modelled as `Int` (grid coordinates may go negative in
the candidate offsets), Python strings as `String`, Python dicts and the
reverse position map as association lists (the keys are pairwise distinct
in every run of the source, so first-match lookup agrees with the Python
dict), and the pseudo-random stream as explicit oracle inputs: `chosen`
for the cells drawn by `random.sample`, `order` for the iteration order of
the Python sets `unvisited` / `remaining`, `picks` for the indices drawn
by `random.choice`, and `coins` for the outcomes of `random.random() < p`.
Raising an exception is modelled as an `Except` error value.
-/

/-- A grid cell `(row, col)`, as in the Python tuples. -/
abbrev Cell := Int × Int

/-- A node label; the generators use `str(i)`. -/
abbrev Label := String

/-- `0 <= r < rows and 0 <= c < cols`, the in-range test used everywhere. -/
def inGrid (rows cols : Nat) (p : Cell) : Prop :=
  0 ≤ p.1 ∧ p.1 < (rows : Int) ∧ 0 ≤ p.2 ∧ p.2 < (cols : Int)

instance (rows cols : Nat) (p : Cell) : Decidable (inGrid rows cols p) := by
  unfold inGrid; infer_instance

/-- `hex_neighbors` from `planar.py` (identical in `11x11_imp/planar.py`,
`generate_graphs.py`, `planar_graph_tool.py`,
`planar_graph_tool_with_testbench.py` and the local `neighbors` of
`generate_hex_network.py`): row-parity dependent candidate offsets,
clipped to the grid. -/
def hex_neighbors (rows cols : Nat) (r c : Int) : List Cell :=
  let cand : List Cell :=
    if r % 2 = 0 then
      [(r, c-1), (r, c+1), (r-1, c-1), (r-1, c), (r+1, c-1), (r+1, c)]
    else
      [(r, c-1), (r, c+1), (r-1, c), (r-1, c+1), (r+1, c), (r+1, c+1)]
  cand.filter (fun p => decide (inGrid rows cols p))

/-- `expected_neighbors` from `Generation_Visualisation/verification.py`
(lines 69-88), transcribed exactly: note that the candidate list this
function uses for even rows is the one `hex_neighbors` uses for odd rows
and vice versa. -/
def expected_neighbors (rows cols : Nat) (r c : Int) : List Cell :=
  let cand : List Cell :=
    if r % 2 = 0 then
      [(r, c - 1), (r, c + 1), (r - 1, c), (r - 1, c + 1), (r + 1, c), (r + 1, c + 1)]
    else
      [(r, c - 1), (r, c + 1), (r - 1, c - 1), (r - 1, c), (r + 1, c - 1), (r + 1, c)]
  cand.filter (fun p => decide (inGrid rows cols p))

/-- Python lexicographic `<` on strings (comparison by code points). -/
def charListLt : List Char → List Char → Bool
  | _, [] => false
  | [], _ :: _ => true
  | a :: as, b :: bs =>
      if a.toNat < b.toNat then true
      else if b.toNat < a.toNat then false
      else charListLt as bs

/-- Python `a < b` on strings. -/
def pyStrLt (a b : String) : Bool := charListLt a.data b.data

/-- `tuple(sorted((a, b)))` on two labels, as used by `add_edge` and the
testbench writers to canonicalise an edge. -/
def sortPair (a b : Label) : Label × Label :=
  if pyStrLt b a then (b, a) else (a, b)

/-- The mutable state of a generator run: the `edges` set (as a list, most
recently added first) and the `degree` dict (as a total function; the
source only ever queries labels present in the dict). -/
structure GState where
  edges : List (Label × Label)
  degree : Label → Nat

/-- `degree = {n: 0 for n in nodes}; edges = set()`. -/
def initG : GState := ⟨[], fun _ => 0⟩

/-- `add_edge` common to all generator variants (`planar.py` lines 44-52,
`11x11_imp/planar.py` lines 58-72): refuses self-loops, the degree-6 cap
and duplicate (canonicalised) edges; returns the new state and the Python
return value. -/
def add_edge (st : GState) (a b : Label) : GState × Bool :=
  if a = b then (st, false)
  else if 6 ≤ st.degree a ∨ 6 ≤ st.degree b then (st, false)
  else
    let e := sortPair a b
    if e ∈ st.edges then (st, false)
    else
      (⟨e :: st.edges,
        fun n => if n = a ∨ n = b then st.degree n + 1 else st.degree n⟩, true)

/-- `random.choice(l)` on a non-empty list, driven by an oracle value `k`:
any element of `l` is picked for a suitable `k`.  For `l = []` (where
Python raises) the default is returned; all call sites guard against
that. -/
def pickFrom (l : List Label) (k : Nat) (dflt : Label) : Label :=
  if h : l.length = 0 then dflt
  else l.get ⟨k % l.length, Nat.mod_lt _ (Nat.pos_of_ne_zero h)⟩

/-- `pos_map[n]`, with the dict `pos_map` kept as an association list
`posL = list(zip(nodes, chosen))`.  The default `(0, 0)` is never reached
by the source (it only looks up its own node labels). -/
def posOf (posL : List (Label × Cell)) (n : Label) : Cell :=
  match posL with
  | [] => (0, 0)
  | (m, p) :: rest => if m = n then p else posOf rest n

/-- One error type for everything a generator pass can do other than
returning a graph. -/
inductive PassErr where
  /-- `ValueError` from the capacity check. -/
  | capacity : PassErr
  /-- the restart variant found a node with no hex-adjacent visited node
  and re-called itself (`planar.py` line 72). -/
  | isolated : PassErr
  /-- a runtime error the source would raise (`pop` from an empty set,
  `random.choice` of an empty list) or, for the fuel-indexed safe loop,
  running out of fuel. -/
  | crashed : PassErr
deriving DecidableEq, Repr

/-- The `(nodes, list(edges), pos_map)` triple a generator returns. -/
structure GenResult where
  nodes : List Label
  edges : List (Label × Label)
  posL : List (Label × Cell)
deriving DecidableEq, Repr

/-- The spanning loop of the restart variant (`planar.py` lines 61-76):
pop the next unvisited node, collect the visited nodes whose cell it is
hex-adjacent to, fail if there are none, otherwise connect to a chosen one
(ignoring `add_edge`'s result) and mark it visited. -/
def spanning (rows cols : Nat) (posL : List (Label × Cell)) :
    List Label → List Label → GState → List Nat → Option GState
  | [], _, st, _ => some st
  | nxt :: rest, visited, st, picks =>
      let parents := visited.filter
        (fun v => decide (posOf posL nxt ∈
          hex_neighbors rows cols (posOf posL v).1 (posOf posL v).2))
      if parents = [] then none
      else
        let parent := pickFrom parents (picks.headD 0) nxt
        spanning rows cols posL rest (visited ++ [nxt])
          (add_edge st parent nxt).1 picks.tail

/-- One candidate pair `(u, v)` of the densification loop: skip `u == v`,
check hex adjacency, then flip a coin and maybe add the edge.  A coin is
consumed exactly when the source calls `random.random()`. -/
def dens_pair (rows cols : Nat) (posL : List (Label × Cell)) (u v : Label)
    (sc : GState × List Bool) : GState × List Bool :=
  if u ≠ v ∧ posOf posL v ∈ hex_neighbors rows cols (posOf posL u).1 (posOf posL u).2 then
    (if sc.2.headD false then (add_edge sc.1 u v).1 else sc.1, sc.2.tail)
  else sc

/-- The densification phase (`planar.py` lines 79-86): all ordered pairs
of nodes, in list order. -/
def densify (rows cols : Nat) (posL : List (Label × Cell)) (nodes : List Label)
    (sc : GState × List Bool) : GState × List Bool :=
  nodes.foldl (fun acc u => nodes.foldl (fun acc2 v => dens_pair rows cols posL u v acc2) acc) sc

/-- One pass of `generate_planar_graph` from `planar.py` (the restart
variant; also `generate_graphs.py` / `planar_graph_tool.py` up to the
probability constant and bound strictness): capacity check, then node
placement, spanning phase and densification.  `.error .isolated` stands
for the self-recursive retry at line 72. -/
def generate_pass (rows cols num : Nat) (chosen : List Cell) (order : List Label)
    (picks : List Nat) (coins : List Bool) : Except PassErr GenResult :=
  if rows * cols < num then .error .capacity
  else
    let nodes := (List.range num).map (fun i => Nat.repr i)
    let posL := nodes.zip chosen
    match order with
    | [] => .error .crashed
    | root :: rest =>
        match spanning rows cols posL rest [root] initG picks with
        | none => .error .isolated
        | some st =>
            let sc := densify rows cols posL nodes (st, coins)
            .ok ⟨nodes, sc.1.edges, posL⟩

/-- `generate_planar_graph(rows, cols, num_nodes, seed)` with a fixed
(non-`None`) seed, including the self-recursive retry: the retry re-seeds
with the same seed, so every attempt consumes the identical pseudo-random
stream `(chosen, order, picks, coins)`.  `none` means the recursion never
returns within `fuel` nested calls. -/
def generate_seeded (rows cols num : Nat) (chosen : List Cell) (order : List Label)
    (picks : List Nat) (coins : List Bool) : Nat → Option (Except PassErr GenResult)
  | 0 => none
  | fuel + 1 =>
      match generate_pass rows cols num chosen order picks coins with
      | .error .isolated => generate_seeded rows cols num chosen order picks coins fuel
      | r => some r

/-- Squared Euclidean distance on raw `(r, c)` coordinates, as in the
`key` lambda of the force-fix step (`11x11_imp/planar.py` lines 119-123). -/
def dist2 (a b : Cell) : Int :=
  (a.1 - b.1) * (a.1 - b.1) + (a.2 - b.2) * (a.2 - b.2)

/-- `min(visited, key=lambda vv: dist2(pos[vv], w))`: first strictly
minimal element wins, matching Python `min`.  Empty input (where Python
raises) returns `""`; the call site guards `visited` non-empty. -/
def pyMin (posL : List (Label × Cell)) (w : Cell) : List Label → Label
  | [] => ""
  | v :: vs =>
      vs.foldl (fun best x =>
        if dist2 (posOf posL x) w < dist2 (posOf posL best) w then x else best) v

/-- The `for w in list(remaining)` repair loop of the stuck branch
(`11x11_imp/planar.py` lines 103-112): first remaining node hex-adjacent
to `p` for which `add_edge` succeeds. -/
def tryFix (rows cols : Nat) (posL : List (Label × Cell)) (st : GState) (p : Label) :
    List Label → Option (GState × Label)
  | [] => none
  | w :: ws =>
      if posOf posL w ∈ hex_neighbors rows cols (posOf posL p).1 (posOf posL p).2 then
        let r := add_edge st p w
        if r.2 then some (r.1, w) else tryFix rows cols posL st p ws
      else tryFix rows cols posL st p ws

/-- State of the safe variant's BFS loop. -/
structure SafeSt where
  st : GState
  visited : List Label
  queue : List Label
  remaining : List Label
  picks : List Nat

/-- The BFS inner `for w in neighbors` loop body (`11x11_imp/planar.py`
lines 88-92): try the edge; on success mark visited, drop from remaining
and enqueue. -/
def bfs_connect (u : Label) (acc : GState × List Label × List Label × List Label)
    (w : Label) : GState × List Label × List Label × List Label :=
  let r := add_edge acc.1 u w
  if r.2 then (r.1, acc.2.1 ++ [w], acc.2.2.1.erase w, acc.2.2.2 ++ [w])
  else (r.1, acc.2.1, acc.2.2.1, acc.2.2.2)

/-- Outcome of one iteration of the safe variant's `while remaining`
loop. -/
inductive SafeStep where
  /-- `remaining` is empty: the loop exits. -/
  | done : SafeStep
  /-- the next loop state. -/
  | next : SafeSt → SafeStep
  /-- the source raises (`queue.pop(0)` on an empty queue, or
  `random.choice` of an empty parents list). -/
  | crash : SafeStep

/-- One iteration of the `while remaining` loop of
`generate_planar_graph_safe` (`11x11_imp/planar.py` lines 80-128): pop
the queue head, BFS-connect its hex-adjacent remaining nodes, and if the
queue ran dry with nodes left, repair via a free-degree parent or, as a
last resort, force-connect the first remaining node to the
Euclidean-nearest visited node ignoring `add_edge`'s result. -/
def safe_step (rows cols : Nat) (posL : List (Label × Cell)) (s : SafeSt) : SafeStep :=
  if s.remaining = [] then .done
  else
    match s.queue with
    | [] => .crash
    | u :: qrest =>
        let adj := hex_neighbors rows cols (posOf posL u).1 (posOf posL u).2
        let nbrs := s.remaining.filter (fun w => decide (posOf posL w ∈ adj))
        let b := nbrs.foldl (bfs_connect u) (s.st, s.visited, s.remaining, qrest)
        if b.2.2.2 = [] ∧ b.2.2.1 ≠ [] then
          let parents := b.2.1.filter (fun p => b.1.degree p < 6)
          if parents = [] then .crash
          else
            let p := pickFrom parents (s.picks.headD 0) u
            match tryFix rows cols posL b.1 p b.2.2.1 with
            | some (st2, w) =>
                .next ⟨st2, b.2.1 ++ [w], b.2.2.2 ++ [w], b.2.2.1.erase w, s.picks.tail⟩
            | none =>
                match b.2.2.1 with
                | [] => .crash
                | w :: _ =>
                    let bp := pyMin posL (posOf posL w) b.2.1
                    .next ⟨(add_edge b.1 bp w).1, b.2.1 ++ [w], b.2.2.2 ++ [w],
                      b.2.2.1.erase w, s.picks.tail⟩
        else .next ⟨b.1, b.2.1, b.2.2.2, b.2.2.1, s.picks⟩

/-- The `while remaining` loop, fuel-indexed; `none` is fuel exhaustion
or a crash of the source. -/
def safeLoop (rows cols : Nat) (posL : List (Label × Cell)) :
    Nat → SafeSt → Option SafeSt
  | 0, _ => none
  | fuel + 1, s =>
      match safe_step rows cols posL s with
      | .done => some s
      | .crash => none
      | .next s2 => safeLoop rows cols posL fuel s2

/-- `generate_planar_graph_safe` from `11x11_imp/planar.py` (lines
31-141): capacity check, placement, fuel-indexed BFS loop with stuck
repair, then the same densification phase (probability 0.30). -/
def generate_safe (rows cols num : Nat) (chosen : List Cell) (order : List Label)
    (picks : List Nat) (coins : List Bool) (fuel : Nat) : Except PassErr GenResult :=
  if rows * cols < num then .error .capacity
  else
    let nodes := (List.range num).map (fun i => Nat.repr i)
    let posL := nodes.zip chosen
    match order with
    | [] => .error .crashed
    | root :: rest =>
        match safeLoop rows cols posL fuel ⟨initG, [root], [root], rest, picks⟩ with
        | none => .error .crashed
        | some s =>
            let sc := densify rows cols posL nodes (s.st, coins)
            .ok ⟨nodes, sc.1.edges, posL⟩

/-- Undirected adjacency induced by the canonicalised edge list: the
relation a breadth-first traversal of the returned graph follows. -/
def edgeAdj (E : List (Label × Label)) (x y : Label) : Prop :=
  (x, y) ∈ E ∨ (y, x) ∈ E

/-- Number of edges incident to `n` in an edge list. -/
def countInc (n : Label) (E : List (Label × Label)) : Nat :=
  E.countP (fun e => decide (e.1 = n ∨ e.2 = n))

/-- All grid cells in row-major order (`[(r, c) for r in range(rows) for c
in range(cols)]`). -/
def gridCells (rows cols : Nat) : List Cell :=
  (List.range rows).flatMap
    (fun r => (List.range cols).map (fun c => (Int.ofNat r, Int.ofNat c)))

/-- The canonical coupler-pair enumeration of `write_testbench`
(`planar.py` lines 106-111): for every cell and every neighbor, keep
`(cell, neighbor)` unless the reversed pair was already collected. -/
def coupler_pairs (rows cols : Nat) : List (Cell × Cell) :=
  (gridCells rows cols).foldl (fun acc p =>
    (hex_neighbors rows cols p.1 p.2).foldl (fun acc2 q =>
      if (q, p) ∈ acc2 then acc2 else acc2 ++ [(p, q)]) acc) []

/-- The reverse map `rev = {pos_map[n]: n for n in nodes}`. -/
def revOf (posL : List (Label × Cell)) : List (Cell × Label) :=
  posL.map (fun nc => (nc.2, nc.1))

/-- `rev.get(cell)`: first-match association-list lookup (the cells are
pairwise distinct in every generated graph, matching the Python dict). -/
def revGet (revL : List (Cell × Label)) (p : Cell) : Option Label :=
  match revL with
  | [] => none
  | (q, n) :: rest => if q = p then some n else revGet rest p

/-- The coupler-enable value of `write_testbench` (`planar.py` lines
143-147, identically `11x11_imp/planar.py` lines 224-232):
`on = 1 if u and v and tuple(sorted((u, v))) in edge_set else 0`, with
Python truthiness on the looked-up labels (`None` and `""` are falsy). -/
def coupler_on (revL : List (Cell × Label)) (edge_set : List (Label × Label))
    (a b : Cell) : Nat :=
  match revGet revL a, revGet revL b with
  | some u, some v =>
      if u.isEmpty then 0
      else if v.isEmpty then 0
      else if sortPair u v ∈ edge_set then 1 else 0
  | _, _ => 0

/-- The RO-enable values written by `write_testbench` in `planar.py`
(lines 136-139): the literal `1` for every grid cell, whatever the
graph. -/
def ro_enables_main (rows cols : Nat) : List (Cell × Nat) :=
  (gridCells rows cols).map (fun p => (p, 1))

/-- The RO-enable values written by `write_testbench` in
`11x11_imp/planar.py` (lines 213-219):
`node = rev.get((r, c)); val = 1 if node in nodes else 0`. -/
def ro_enables_impl (rows cols : Nat) (revL : List (Cell × Label))
    (nodes : List Label) : List (Cell × Nat) :=
  (gridCells rows cols).map (fun p =>
    (p, match revGet revL p with
        | some n => if n ∈ nodes then 1 else 0
        | none => 0))

/-- Python `needle in hay` on a list of characters. -/
def listPrefixB : List Char → List Char → Bool
  | [], _ => true
  | _ :: _, [] => false
  | a :: as, b :: bs => a = b && listPrefixB as bs

/-- Substring search over the tail positions of `hay`. -/
def containsSub (needle : List Char) : List Char → Bool
  | [] => listPrefixB needle []
  | c :: rest => listPrefixB needle (c :: rest) || containsSub needle rest

/-- Python `needle in hay` on strings. -/
def strContains (hay needle : String) : Bool := containsSub needle.data hay.data

/-- `str.split()` with no argument: split on whitespace runs, no empty
fields. -/
def pySplitAux : List Char → List Char → List String
  | [], acc => if acc = [] then [] else [String.mk acc.reverse]
  | c :: rest, acc =>
      if c.isWhitespace then
        if acc = [] then pySplitAux rest []
        else String.mk acc.reverse :: pySplitAux rest []
      else pySplitAux rest (c :: acc)

/-- `line.split()`. -/
def pySplit (s : String) : List String := pySplitAux s.data []

/-- Maximal leading digit run of a character list and the rest. -/
def takeDigits : List Char → List Char × List Char
  | [] => ([], [])
  | c :: rest =>
      if c.isDigit then
        let d := takeDigits rest
        (c :: d.1, d.2)
      else ([], c :: rest)

/-- `int()` of a digit run. -/
def digitsVal (ds : List Char) : Nat :=
  ds.foldl (fun a c => a * 10 + (c.toNat - 48)) 0

/-- `re.match(r"XRO_(\d+)_(\d+)", inst)`: anchored prefix match; the
greedy `\d+` groups are equivalent to maximal digit runs here. -/
def matchXRO : List Char → Option (Nat × Nat)
  | 'X' :: 'R' :: 'O' :: '_' :: rest =>
      let d1 := takeDigits rest
      if d1.1 = [] then none
      else
        match d1.2 with
        | '_' :: rest2 =>
            let d2 := takeDigits rest2
            if d2.1 = [] then none
            else some (digitsVal d1.1, digitsVal d2.1)
        | _ => none
  | _ => none

/-- `re.match(r"XCPL_(\d+)_(\d+)__(\d+)_(\d+)", inst)`. -/
def matchXCPL : List Char → Option (Nat × Nat × Nat × Nat)
  | 'X' :: 'C' :: 'P' :: 'L' :: '_' :: rest =>
      let d1 := takeDigits rest
      if d1.1 = [] then none
      else
        match d1.2 with
        | '_' :: rest2 =>
            let d2 := takeDigits rest2
            if d2.1 = [] then none
            else
              match d2.2 with
              | '_' :: '_' :: rest3 =>
                  let d3 := takeDigits rest3
                  if d3.1 = [] then none
                  else
                    match d3.2 with
                    | '_' :: rest4 =>
                        let d4 := takeDigits rest4
                        if d4.1 = [] then none
                        else some (digitsVal d1.1, digitsVal d2.1, digitsVal d3.1, digitsVal d4.1)
                    | _ => none
              | _ => none
        | _ => none
  | _ => none

/-- The only exception the parsers can raise. -/
inductive PyErr where
  | indexError : PyErr
deriving DecidableEq, Repr

/-- `parse_ring_instance` from `verification.py` (lines 18-39): tag test,
instance-name regex, then unconditional indexing `tokens[8]`, which raises
`IndexError` on short lines. -/
def parse_ring_instance (line : String) :
    Except PyErr (Option (Nat × Nat × List String × String)) :=
  if strContains line "RING_OSC" = false then .ok none
  else
    match pySplit line with
    | [] => .error .indexError
    | inst :: restTokens =>
        match matchXRO inst.data with
        | none => .ok none
        | some rc =>
            if h : 7 < restTokens.length then
              .ok (some (rc.1, rc.2, restTokens.take 7, restTokens.get ⟨7, h⟩))
            else .error .indexError

/-- `parse_coupler_instance` from `verification.py` (lines 42-62): tag
test, instance-name regex, then unconditional indexing `tokens[1..3]`. -/
def parse_coupler_instance (line : String) :
    Except PyErr (Option (Nat × Nat × Nat × Nat × String × String × String)) :=
  if strContains line "COUPLING" = false then .ok none
  else
    match pySplit line with
    | [] => .error .indexError
    | inst :: restTokens =>
        match matchXCPL inst.data with
        | none => .ok none
        | some r =>
            match restTokens with
            | enable :: nodeA :: nodeB :: _ =>
                .ok (some (r.1, r.2.1, r.2.2.1, r.2.2.2, enable, nodeA, nodeB))
            | _ => .error .indexError

/-- Concrete placement driving `generate_planar_graph_safe` into its
force-fix branch seven times: no two of the eight cells are hex-adjacent,
node `"1"` at `(5, 5)` is the strict Euclidean-nearest visited node for
every later repair, so it accumulates degree 6 and the final repair's
`add_edge` is silently refused. -/
def cexCells : List Cell :=
  [(11, 11), (5, 5), (5, 10), (10, 5), (5, 1), (1, 5), (7, 7), (7, 4)]

/-- The set-iteration order for the counterexample run: labels in numeric
order (root `"0"` first). -/
def cexOrder : List Label := ["0", "1", "2", "3", "4", "5", "6", "7"]

/-- Invariant tying the `degree` dict to the `edges` list: the dict holds
the true incidence count and never exceeds the cap 6. -/
def DegInv (st : GState) : Prop :=
  (∀ n, st.degree n = countInc n st.edges) ∧ (∀ n, st.degree n ≤ 6)

/-- An edge whose two endpoint cells are hex-adjacent (in at least one
direction of the neighbor-list membership). -/
def AdjOk (rows cols : Nat) (posL : List (Label × Cell)) (e : Label × Label) : Prop :=
  posOf posL e.1 ∈ hex_neighbors rows cols (posOf posL e.2).1 (posOf posL e.2).2 ∨
  posOf posL e.2 ∈ hex_neighbors rows cols (posOf posL e.1).1 (posOf posL e.1).2

/-- All edges of the state are hex-adjacent. -/
def AdjInv (rows cols : Nat) (posL : List (Label × Cell)) (st : GState) : Prop :=
  ∀ e ∈ st.edges, AdjOk rows cols posL e

/-! ## Helper lemmas -/

/-- Membership in `hex_neighbors` spelled out as arithmetic. -/
theorem hex_mem_iff (rows cols : Nat) (r c x y : Int) :
    (x, y) ∈ hex_neighbors rows cols r c ↔
      ((r % 2 = 0 ∧ (x = r ∧ y = c - 1 ∨ x = r ∧ y = c + 1 ∨ x = r - 1 ∧ y = c - 1 ∨
          x = r - 1 ∧ y = c ∨ x = r + 1 ∧ y = c - 1 ∨ x = r + 1 ∧ y = c)) ∨
       (r % 2 ≠ 0 ∧ (x = r ∧ y = c - 1 ∨ x = r ∧ y = c + 1 ∨ x = r - 1 ∧ y = c ∨
          x = r - 1 ∧ y = c + 1 ∨ x = r + 1 ∧ y = c ∨ x = r + 1 ∧ y = c + 1))) ∧
      (0 ≤ x ∧ x < (rows : Int) ∧ 0 ≤ y ∧ y < (cols : Int)) := by
  by_cases h : r % 2 = 0 <;>
    simp [hex_neighbors, h, List.mem_filter, inGrid, Prod.ext_iff]

set_option maxHeartbeats 2000000 in
/-- Hex adjacency is a symmetric relation on in-range cells. -/
theorem hex_mem_symm (rows cols : Nat) (ra ca rb cb : Int)
    (ha : inGrid rows cols (ra, ca)) (hb : inGrid rows cols (rb, cb)) :
    (rb, cb) ∈ hex_neighbors rows cols ra ca ↔
      (ra, ca) ∈ hex_neighbors rows cols rb cb := by
  obtain ⟨ha1, ha2, ha3, ha4⟩ := ha
  obtain ⟨hb1, hb2, hb3, hb4⟩ := hb
  simp only at ha1 ha2 ha3 ha4 hb1 hb2 hb3 hb4
  rw [hex_mem_iff, hex_mem_iff]
  constructor <;>
    (rintro ⟨(⟨hp, h6⟩ | ⟨hp, h6⟩), hrange⟩ <;>
      rcases h6 with h | h | h | h | h | h <;>
      refine ⟨?_, by omega⟩ <;>
      first
        | exact Or.inl ⟨by omega, by omega⟩
        | exact Or.inr ⟨by omega, by omega⟩)

/-- A `foldl` preserves any invariant its step preserves. -/
theorem foldl_preserve {α β : Type} (P : β → Prop) (f : β → α → β) :
    ∀ (l : List α) (b : β), (∀ x a, P x → P (f x a)) → P b → P (l.foldl f b)
  | [], _, _, hb => hb
  | a :: l, b, hstep, hb => foldl_preserve P f l (f b a) hstep (hstep b a hb)

/-- `sortPair` returns the pair in one of its two orientations. -/
theorem sortPair_cases (a b : Label) :
    sortPair a b = (a, b) ∨ sortPair a b = (b, a) := by
  unfold sortPair; split <;> simp

/-- The chosen element of `pickFrom` belongs to the (non-empty) list. -/
theorem pickFrom_mem (l : List Label) (k : Nat) (d : Label) (h : l ≠ []) :
    pickFrom l k d ∈ l := by
  unfold pickFrom
  have hl : l.length ≠ 0 := by simpa using h
  rw [dif_neg hl]
  exact List.get_mem _ _ _

/-- Case analysis on `add_edge`: it either leaves the state unchanged or
prepends the canonicalised edge and bumps the two endpoint degrees. -/
theorem add_edge_cases (st : GState) (a b : Label) :
    (add_edge st a b).1 = st ∨
    (a ≠ b ∧ st.degree a < 6 ∧ st.degree b < 6 ∧ sortPair a b ∉ st.edges ∧
      (add_edge st a b).1 = ⟨sortPair a b :: st.edges,
        fun n => if n = a ∨ n = b then st.degree n + 1 else st.degree n⟩) := by
  unfold add_edge
  by_cases h1 : a = b
  · simp [h1]
  · rw [if_neg h1]
    by_cases h2 : 6 ≤ st.degree a ∨ 6 ≤ st.degree b
    · simp [h2]
    · rw [if_neg h2]
      push_neg at h2
      by_cases h3 : sortPair a b ∈ st.edges
      · simp [h3]
      · right
        refine ⟨h1, h2.1, h2.2, h3, ?_⟩
        rw [if_neg h3]

/-- `countP` unfolding for `countInc`. -/
theorem countInc_cons (n : Label) (e : Label × Label) (E : List (Label × Label)) :
    countInc n (e :: E) = countInc n E + (if e.1 = n ∨ e.2 = n then 1 else 0) := by
  simp [countInc, List.countP_cons]

/-- An edge touches `n` iff one of the two labels fed to `sortPair` is `n`. -/
theorem sortPair_touches (a b n : Label) :
    ((sortPair a b).1 = n ∨ (sortPair a b).2 = n) ↔ (n = a ∨ n = b) := by
  rcases sortPair_cases a b with h | h <;> rw [h] <;>
    constructor <;> rintro (rfl | rfl) <;> simp

/-- `add_edge` preserves the degree invariant. -/
theorem add_edge_DegInv (st : GState) (a b : Label) (h : DegInv st) :
    DegInv (add_edge st a b).1 := by
  rcases add_edge_cases st a b with he | ⟨hne, ha, hb, hnew, he⟩
  · rw [he]; exact h
  · obtain ⟨h1, h2⟩ := h
    rw [he]
    constructor
    · intro n
      show (if n = a ∨ n = b then st.degree n + 1 else st.degree n) = _
      rw [countInc_cons]
      by_cases hn : n = a ∨ n = b
      · rw [if_pos hn, if_pos ((sortPair_touches a b n).mpr hn), h1 n]
      · rw [if_neg hn, if_neg (fun hc => hn ((sortPair_touches a b n).mp hc)), h1 n,
          Nat.add_zero]
    · intro n
      show (if n = a ∨ n = b then st.degree n + 1 else st.degree n) ≤ 6
      by_cases hn : n = a ∨ n = b
      · rw [if_pos hn]
        rcases hn with rfl | rfl <;> omega
      · rw [if_neg hn]; exact h2 n

/-- The spanning loop of the restart variant preserves the degree
invariant. -/
theorem spanning_DegInv (rows cols : Nat) (posL : List (Label × Cell)) :
    ∀ (rest visited : List Label) (st : GState) (picks : List Nat) (out : GState),
      spanning rows cols posL rest visited st picks = some out →
      DegInv st → DegInv out := by
  intro rest
  induction rest with
  | nil =>
      intro visited st picks out h hd
      unfold spanning at h
      cases h
      exact hd
  | cons nxt rest ih =>
      intro visited st picks out h hd
      unfold spanning at h
      dsimp only at h
      split at h
      · simp at h
      · exact ih _ _ _ _ h (add_edge_DegInv _ _ _ hd)

/-- One densification step preserves the degree invariant. -/
theorem dens_pair_DegInv (rows cols : Nat) (posL : List (Label × Cell)) (u v : Label)
    (sc : GState × List Bool) (h : DegInv sc.1) :
    DegInv (dens_pair rows cols posL u v sc).1 := by
  unfold dens_pair
  split
  · show DegInv (if sc.2.headD false then (add_edge sc.1 u v).1 else sc.1)
    split
    · exact add_edge_DegInv _ _ _ h
    · exact h
  · exact h

/-- The densification phase preserves the degree invariant. -/
theorem densify_DegInv (rows cols : Nat) (posL : List (Label × Cell)) (nodes : List Label)
    (sc : GState × List Bool) (h : DegInv sc.1) :
    DegInv (densify rows cols posL nodes sc).1 := by
  unfold densify
  have hstep : ∀ (x : GState × List Bool) (u : Label), DegInv x.1 →
      DegInv (nodes.foldl (fun acc2 v => dens_pair rows cols posL u v acc2) x).1 := by
    intro x u hx
    exact foldl_preserve (fun y => DegInv y.1)
      (fun acc2 v => dens_pair rows cols posL u v acc2) nodes x
      (fun y v hy => dens_pair_DegInv rows cols posL u v y hy) hx
  exact foldl_preserve (fun y => DegInv y.1) _ nodes sc (fun x u hx => hstep x u hx) h

/-- One BFS connection attempt preserves the degree invariant. -/
theorem bfs_connect_DegInv (u : Label) (acc : GState × List Label × List Label × List Label)
    (w : Label) (h : DegInv acc.1) : DegInv (bfs_connect u acc w).1 := by
  unfold bfs_connect
  dsimp only
  split <;> exact add_edge_DegInv _ _ _ h

/-- The stuck-branch repair loop preserves the degree invariant. -/
theorem tryFix_DegInv (rows cols : Nat) (posL : List (Label × Cell)) (p : Label) :
    ∀ (ws : List Label) (st st2 : GState) (w : Label),
      tryFix rows cols posL st p ws = some (st2, w) → DegInv st → DegInv st2 := by
  intro ws
  induction ws with
  | nil => intro st st2 w h _; simp [tryFix] at h
  | cons x ws ih =>
      intro st st2 w h hd
      unfold tryFix at h
      dsimp only at h
      split at h
      · split at h
        · cases h
          exact add_edge_DegInv _ _ _ hd
        · exact ih _ _ _ h hd
      · exact ih _ _ _ h hd

/-- One iteration of the safe BFS loop preserves the degree invariant. -/
theorem safe_step_DegInv (rows cols : Nat) (posL : List (Label × Cell)) (s s2 : SafeSt)
    (h : safe_step rows cols posL s = .next s2) (hd : DegInv s.st) : DegInv s2.st := by
  unfold safe_step at h
  split at h
  · cases h
  · split at h
    · cases h
    · rename_i u qrest heq
      dsimp only at h
      have hb : DegInv ((s.remaining.filter (fun w => decide (posOf posL w ∈
          hex_neighbors rows cols (posOf posL u).1 (posOf posL u).2))).foldl
            (bfs_connect u) (s.st, s.visited, s.remaining, qrest)).1 :=
        foldl_preserve (fun x => DegInv x.1) _ _ _
          (fun x w hx => bfs_connect_DegInv u x w hx) hd
      split at h
      · split at h
        · cases h
        · split at h
          · rename_i st2 w htf
            cases h
            exact tryFix_DegInv rows cols posL _ _ _ _ _ htf hb
          · split at h
            · cases h
            · cases h
              exact add_edge_DegInv _ _ _ hb
      · cases h
        exact hb

/-- The safe variant's BFS loop preserves the degree invariant. -/
theorem safeLoop_DegInv (rows cols : Nat) (posL : List (Label × Cell)) :
    ∀ (fuel : Nat) (s out : SafeSt),
      safeLoop rows cols posL fuel s = some out → DegInv s.st → DegInv out.st := by
  intro fuel
  induction fuel with
  | zero => intro s out h _; simp [safeLoop] at h
  | succ n ih =>
      intro s out h hd
      unfold safeLoop at h
      split at h
      · cases h; exact hd
      · cases h
      · rename_i s2 hstep
        exact ih _ _ h (safe_step_DegInv rows cols posL s s2 hstep hd)

/-- The canonicalised pair of a hex-adjacent pair of labels satisfies
`AdjOk`. -/
theorem AdjOk_of_sortPair (rows cols : Nat) (posL : List (Label × Cell)) (a b : Label)
    (h : posOf posL b ∈ hex_neighbors rows cols (posOf posL a).1 (posOf posL a).2 ∨
         posOf posL a ∈ hex_neighbors rows cols (posOf posL b).1 (posOf posL b).2) :
    AdjOk rows cols posL (sortPair a b) := by
  rcases sortPair_cases a b with hs | hs <;> rw [hs] <;> unfold AdjOk <;>
    dsimp only <;> tauto

/-- `add_edge` called on a hex-adjacent pair preserves the adjacency
invariant. -/
theorem add_edge_AdjInv (rows cols : Nat) (posL : List (Label × Cell)) (st : GState)
    (a b : Label)
    (hadj : posOf posL b ∈ hex_neighbors rows cols (posOf posL a).1 (posOf posL a).2 ∨
            posOf posL a ∈ hex_neighbors rows cols (posOf posL b).1 (posOf posL b).2)
    (h : AdjInv rows cols posL st) : AdjInv rows cols posL (add_edge st a b).1 := by
  rcases add_edge_cases st a b with he | ⟨_, _, _, _, he⟩
  · rw [he]; exact h
  · rw [he]
    intro e hm
    rcases List.mem_cons.mp hm with rfl | hm
    · exact AdjOk_of_sortPair rows cols posL a b hadj
    · exact h e hm

/-- The spanning loop only adds hex-adjacent edges. -/
theorem spanning_AdjInv (rows cols : Nat) (posL : List (Label × Cell)) :
    ∀ (rest visited : List Label) (st : GState) (picks : List Nat) (out : GState),
      spanning rows cols posL rest visited st picks = some out →
      AdjInv rows cols posL st → AdjInv rows cols posL out := by
  intro rest
  induction rest with
  | nil =>
      intro v st p out h ha
      unfold spanning at h
      cases h
      exact ha
  | cons nxt rest ih =>
      intro v st p out h ha
      unfold spanning at h
      dsimp only at h
      split at h
      · simp at h
      · rename_i hne
        refine ih _ _ _ _ h (add_edge_AdjInv rows cols posL st _ nxt (Or.inl ?_) ha)
        have hp := pickFrom_mem (v.filter fun vv => decide (posOf posL nxt ∈
            hex_neighbors rows cols (posOf posL vv).1 (posOf posL vv).2)) (p.headD 0) nxt hne
        exact of_decide_eq_true (List.mem_filter.mp hp).2

/-- One densification step only adds hex-adjacent edges. -/
theorem dens_pair_AdjInv (rows cols : Nat) (posL : List (Label × Cell)) (u v : Label)
    (sc : GState × List Bool) (h : AdjInv rows cols posL sc.1) :
    AdjInv rows cols posL (dens_pair rows cols posL u v sc).1 := by
  unfold dens_pair
  split
  · rename_i hcond
    show AdjInv rows cols posL (if sc.2.headD false then (add_edge sc.1 u v).1 else sc.1)
    split
    · exact add_edge_AdjInv rows cols posL sc.1 u v (Or.inl hcond.2) h
    · exact h
  · exact h

/-- The densification phase preserves the adjacency invariant. -/
theorem densify_AdjInv (rows cols : Nat) (posL : List (Label × Cell)) (nodes : List Label)
    (sc : GState × List Bool) (h : AdjInv rows cols posL sc.1) :
    AdjInv rows cols posL (densify rows cols posL nodes sc).1 := by
  unfold densify
  have hstep : ∀ (x : GState × List Bool) (u : Label), AdjInv rows cols posL x.1 →
      AdjInv rows cols posL (nodes.foldl (fun acc2 v => dens_pair rows cols posL u v acc2) x).1 := by
    intro x u hx
    exact foldl_preserve (fun y => AdjInv rows cols posL y.1)
      (fun acc2 v => dens_pair rows cols posL u v acc2) nodes x
      (fun y v hy => dens_pair_AdjInv rows cols posL u v y hy) hx
  exact foldl_preserve (fun y => AdjInv rows cols posL y.1) _ nodes sc
    (fun x u hx => hstep x u hx) h

/-- Every value of `posOf` is in the grid, provided the placement is and
the grid is non-trivial (so that the default `(0, 0)` also is). -/
theorem posOf_inGrid (rows cols : Nat) (posL : List (Label × Cell))
    (hin : ∀ pc ∈ posL, inGrid rows cols pc.2) (h0 : inGrid rows cols (0, 0)) (n : Label) :
    inGrid rows cols (posOf posL n) := by
  induction posL with
  | nil => exact h0
  | cons pc rest ih =>
      obtain ⟨m, p⟩ := pc
      unfold posOf
      split
      · exact hin (m, p) (List.mem_cons_self _ _)
      · exact ih (fun q hq => hin q (List.mem_cons_of_mem _ hq))

/-- Destructuring a successful pass of the restart generator. -/
theorem generate_pass_ok (rows cols num : Nat) (chosen : List Cell) (order : List Label)
    (picks : List Nat) (coins : List Bool) (res : GenResult)
    (h : generate_pass rows cols num chosen order picks coins = .ok res) :
    ∃ root rest st,
      order = root :: rest ∧
      spanning rows cols (((List.range num).map (fun i => Nat.repr i)).zip chosen)
        rest [root] initG picks = some st ∧
      res = ⟨(List.range num).map (fun i => Nat.repr i),
        (densify rows cols (((List.range num).map (fun i => Nat.repr i)).zip chosen)
          ((List.range num).map (fun i => Nat.repr i)) (st, coins)).1.edges,
        ((List.range num).map (fun i => Nat.repr i)).zip chosen⟩ := by
  unfold generate_pass at h
  split at h
  · cases h
  · dsimp only at h
    split at h
    · cases h
    · rename_i root rest
      split at h
      · cases h
      · rename_i st hsp
        cases h
        exact ⟨root, rest, st, rfl, hsp, rfl⟩

/-- Destructuring a successful run of the safe generator. -/
theorem generate_safe_ok (rows cols num : Nat) (chosen : List Cell) (order : List Label)
    (picks : List Nat) (coins : List Bool) (fuel : Nat) (res : GenResult)
    (h : generate_safe rows cols num chosen order picks coins fuel = .ok res) :
    ∃ root rest s,
      order = root :: rest ∧
      safeLoop rows cols (((List.range num).map (fun i => Nat.repr i)).zip chosen) fuel
        ⟨initG, [root], [root], rest, picks⟩ = some s ∧
      res = ⟨(List.range num).map (fun i => Nat.repr i),
        (densify rows cols (((List.range num).map (fun i => Nat.repr i)).zip chosen)
          ((List.range num).map (fun i => Nat.repr i)) (s.st, coins)).1.edges,
        ((List.range num).map (fun i => Nat.repr i)).zip chosen⟩ := by
  unfold generate_safe at h
  split at h
  · cases h
  · dsimp only at h
    split at h
    · cases h
    · rename_i root rest
      split at h
      · cases h
      · rename_i s hsl
        cases h
        exact ⟨root, rest, s, rfl, hsl, rfl⟩

/-! ## Claim theorems -/

/-- C1: refuted on the code.  At grid size 2x2 and cell (0, 0), the
Verifier's `expected_neighbors` contains `(1, 1)` while the Generator's
`hex_neighbors` does not: the two candidate lists are parity-swapped, so
the adjacency-completeness check does not use the section-4.1 neighbor
set. -/
theorem verifier_neighbor_rule_mismatch :
    ((1 : Int), (1 : Int)) ∈ expected_neighbors 2 2 0 0 ∧
      ((1 : Int), (1 : Int)) ∉ hex_neighbors 2 2 0 0 := by
  decide

/-- C10: the hex adjacency relation is symmetric — for in-range cells `a`
and `b`, `b` is a hex neighbor of `a` iff `a` is a hex neighbor of
`b`. -/
theorem hex_adjacency_symmetric (rows cols : Nat) (a b : Cell)
    (ha : inGrid rows cols a) (hb : inGrid rows cols b) :
    b ∈ hex_neighbors rows cols a.1 a.2 ↔ a ∈ hex_neighbors rows cols b.1 b.2 :=
  hex_mem_symm rows cols a.1 a.2 b.1 b.2 ha hb

/-- Witness for C10 at a concrete pair of in-range cells. -/
theorem hex_adjacency_symmetric_witness :
    (inGrid 3 3 ((0 : Int), (0 : Int)) ∧ inGrid 3 3 ((1 : Int), (0 : Int))) ∧
      (((1 : Int), (0 : Int)) ∈ hex_neighbors 3 3 0 0 ↔
        ((0 : Int), (0 : Int)) ∈ hex_neighbors 3 3 1 0) :=
  ⟨⟨by decide, by decide⟩,
    hex_adjacency_symmetric 3 3 (0, 0) (1, 0) (by decide) (by decide)⟩

/-- C8: whenever the requested node count exceeds the capacity bound the
generator raises the capacity `ValueError` before sampling any cell,
labelling any node or creating any edge — the error is produced before
the placement oracle is even consulted, for every pseudo-random
stream. -/
theorem capacity_check_rejects (rows cols num : Nat) (chosen : List Cell)
    (order : List Label) (picks : List Nat) (coins : List Bool)
    (h : rows * cols < num) :
    generate_pass rows cols num chosen order picks coins = .error .capacity := by
  unfold generate_pass
  rw [if_pos h]

/-- Witness for C8: `generate(2, 2, 5, seed)` (4 cells, 5 nodes). -/
theorem capacity_check_rejects_witness :
    2 * 2 < 5 ∧ generate_pass 2 2 5 [] [] [] [] = .error .capacity :=
  ⟨by decide, capacity_check_rejects 2 2 5 [] [] [] [] (by decide)⟩

/-- C6: refuted on the code.  With a fixed seed whose sample places the
two nodes at the non-adjacent cells (0, 0) and (0, 2) of a 1x3 grid, the
retry re-seeds with the same seed, reproduces the identical placement and
recurses forever: no fuel bound suffices, i.e. the recursion never
returns. -/
theorem seeded_retry_never_returns (fuel : Nat) :
    generate_seeded 1 3 2 [(0, 0), (0, 2)] ["0", "1"] [] [] fuel = none := by
  induction fuel with
  | zero => rfl
  | succ n ih =>
      have h : generate_pass 1 3 2 [(0, 0), (0, 2)] ["0", "1"] [] [] =
          .error .isolated := by rfl
      unfold generate_seeded
      rw [h]
      exact ih

/-- C5: every Graph returned by either generator variant has all node
degrees at most 6 — the incidence count of every label in the returned
edge list is bounded by 6, a bound maintained through the spanning/BFS
phase and the densification phase alike. -/
theorem generated_degree_le_six (rows cols num : Nat) (chosen : List Cell)
    (order : List Label) (picks : List Nat) (coins : List Bool) (res : GenResult)
    (rows2 cols2 num2 : Nat) (chosen2 : List Cell) (order2 : List Label)
    (picks2 : List Nat) (coins2 : List Bool) (fuel : Nat) (res2 : GenResult)
    (h1 : generate_pass rows cols num chosen order picks coins = .ok res)
    (h2 : generate_safe rows2 cols2 num2 chosen2 order2 picks2 coins2 fuel = .ok res2) :
    (∀ n, countInc n res.edges ≤ 6) ∧ (∀ n, countInc n res2.edges ≤ 6) := by
  have hinit : DegInv initG := ⟨fun _ => rfl, fun _ => by simp [initG]⟩
  constructor
  · obtain ⟨root, rest, st, -, hsp, hres⟩ := generate_pass_ok _ _ _ _ _ _ _ _ h1
    subst hres
    intro n
    have hd := densify_DegInv rows cols
      (((List.range num).map (fun i => Nat.repr i)).zip chosen)
      ((List.range num).map (fun i => Nat.repr i)) (st, coins)
      (spanning_DegInv rows cols _ _ _ _ _ _ hsp hinit)
    rw [show countInc n (GenResult.mk _
      (densify rows cols (((List.range num).map (fun i => Nat.repr i)).zip chosen)
        ((List.range num).map (fun i => Nat.repr i)) (st, coins)).1.edges _).edges =
      countInc n (densify rows cols (((List.range num).map (fun i => Nat.repr i)).zip chosen)
        ((List.range num).map (fun i => Nat.repr i)) (st, coins)).1.edges from rfl,
      ← hd.1 n]
    exact hd.2 n
  · obtain ⟨root, rest, s, -, hsl, hres⟩ := generate_safe_ok _ _ _ _ _ _ _ _ _ h2
    subst hres
    intro n
    have hd := densify_DegInv rows2 cols2
      (((List.range num2).map (fun i => Nat.repr i)).zip chosen2)
      ((List.range num2).map (fun i => Nat.repr i)) (s.st, coins2)
      (safeLoop_DegInv rows2 cols2 _ _ _ _ hsl hinit)
    rw [show countInc n (GenResult.mk _
      (densify rows2 cols2 (((List.range num2).map (fun i => Nat.repr i)).zip chosen2)
        ((List.range num2).map (fun i => Nat.repr i)) (s.st, coins2)).1.edges _).edges =
      countInc n (densify rows2 cols2 (((List.range num2).map (fun i => Nat.repr i)).zip chosen2)
        ((List.range num2).map (fun i => Nat.repr i)) (s.st, coins2)).1.edges from rfl,
      ← hd.1 n]
    exact hd.2 n

/-- Witness for C5: concrete successful runs of both variants on a 1x2
grid. -/
theorem generated_degree_le_six_witness :
    (∀ n, countInc n [(("0" : Label), ("1" : Label))] ≤ 6) ∧
      (∀ n, countInc n [(("0" : Label), ("1" : Label))] ≤ 6) :=
  generated_degree_le_six 1 2 2 [(0, 0), (0, 1)] ["0", "1"] [] []
    ⟨["0", "1"], [("0", "1")], [("0", (0, 0)), ("1", (0, 1))]⟩
    1 2 2 [(0, 0), (0, 1)] ["0", "1"] [] [] 5
    ⟨["0", "1"], [("0", "1")], [("0", (0, 0)), ("1", (0, 1))]⟩
    (by rfl) (by rfl)

/-- C4 (amended): every Edge of a Graph returned by the restart variant
`generate_planar_graph` joins two hex-adjacent cells — each endpoint's
cell is a member of the other's `hex_neighbors` set.  (The safe variant's
last-resort repair edge does not satisfy this; see the counterexample.) -/
theorem restart_edges_hex_adjacent (rows cols num : Nat) (chosen : List Cell)
    (order : List Label) (picks : List Nat) (coins : List Bool) (res : GenResult)
    (h : generate_pass rows cols num chosen order picks coins = .ok res)
    (hin : ∀ pc ∈ res.posL, inGrid rows cols pc.2)
    (h0 : inGrid rows cols (0, 0)) :
    ∀ e ∈ res.edges,
      posOf res.posL e.1 ∈
        hex_neighbors rows cols (posOf res.posL e.2).1 (posOf res.posL e.2).2 ∧
      posOf res.posL e.2 ∈
        hex_neighbors rows cols (posOf res.posL e.1).1 (posOf res.posL e.1).2 := by
  obtain ⟨root, rest, st, -, hsp, hres⟩ := generate_pass_ok _ _ _ _ _ _ _ _ h
  subst hres
  intro e he
  have hAdj : AdjInv rows cols (((List.range num).map (fun i => Nat.repr i)).zip chosen)
      (densify rows cols (((List.range num).map (fun i => Nat.repr i)).zip chosen)
        ((List.range num).map (fun i => Nat.repr i)) (st, coins)).1 :=
    densify_AdjInv rows cols _ _ (st, coins)
      (spanning_AdjInv rows cols _ _ _ _ _ _ hsp
        (fun e hm => absurd hm (List.not_mem_nil e)))
  have hok := hAdj e he
  have hp1 : inGrid rows cols
      (posOf (((List.range num).map (fun i => Nat.repr i)).zip chosen) e.1) :=
    posOf_inGrid rows cols _ hin h0 e.1
  have hp2 : inGrid rows cols
      (posOf (((List.range num).map (fun i => Nat.repr i)).zip chosen) e.2) :=
    posOf_inGrid rows cols _ hin h0 e.2
  rcases hok with hok | hok
  · exact ⟨hok, (hex_mem_symm rows cols _ _ _ _ hp2 hp1).mp hok⟩
  · exact ⟨(hex_mem_symm rows cols _ _ _ _ hp1 hp2).mp hok, hok⟩

/-- Witness for C4's amended theorem: a concrete successful run on a 1x2
grid whose single edge joins the hex-adjacent cells (0,0) and (0,1). -/
theorem restart_edges_hex_adjacent_witness :
    posOf [("0", ((0 : Int), (0 : Int))), ("1", ((0 : Int), (1 : Int)))] "0" ∈
      hex_neighbors 1 2
        (posOf [("0", ((0 : Int), (0 : Int))), ("1", ((0 : Int), (1 : Int)))] "1").1
        (posOf [("0", ((0 : Int), (0 : Int))), ("1", ((0 : Int), (1 : Int)))] "1").2 ∧
    posOf [("0", ((0 : Int), (0 : Int))), ("1", ((0 : Int), (1 : Int)))] "1" ∈
      hex_neighbors 1 2
        (posOf [("0", ((0 : Int), (0 : Int))), ("1", ((0 : Int), (1 : Int)))] "0").1
        (posOf [("0", ((0 : Int), (0 : Int))), ("1", ((0 : Int), (1 : Int)))] "0").2 :=
  restart_edges_hex_adjacent 1 2 2 [(0, 0), (0, 1)] ["0", "1"] [] []
    ⟨["0", "1"], [("0", "1")], [("0", (0, 0)), ("1", (0, 1))]⟩
    (by rfl) (by decide) (by decide) ("0", "1") (by decide)

/-- C4 counterexample: on the claim as stated.  The safe variant's
last-resort repair (here driven into by the placement `cexCells`) adds the
edge ("0", "1") whose endpoint cells (11, 11) and (5, 5) are hex-adjacent
in neither direction. -/
theorem safe_repair_edge_not_adjacent :
    ∃ res, generate_safe 12 12 8 cexCells cexOrder [] [] 20 = .ok res ∧
      ("0", "1") ∈ res.edges ∧
      posOf res.posL "0" ∉
        hex_neighbors 12 12 (posOf res.posL "1").1 (posOf res.posL "1").2 ∧
      posOf res.posL "1" ∉
        hex_neighbors 12 12 (posOf res.posL "0").1 (posOf res.posL "0").2 := by
  refine ⟨⟨cexOrder, [("1", "6"), ("1", "5"), ("1", "4"), ("1", "3"), ("1", "2"), ("0", "1")],
    cexOrder.zip cexCells⟩, by rfl, by decide, by decide, by decide⟩

/-- No path of the edge relation can end in a label no edge touches. -/
theorem no_reach_of_no_incident (E : List (Label × Label)) (s t : Label)
    (h : ∀ e ∈ E, e.1 ≠ t ∧ e.2 ≠ t) (hne : s ≠ t) :
    ¬ Relation.ReflTransGen (edgeAdj E) s t := by
  intro hr
  rcases Relation.ReflTransGen.cases_tail hr with heq | ⟨c, -, hadj⟩
  · exact hne heq.symm
  · rcases hadj with hm | hm
    · exact (h _ hm).2 rfl
    · exact (h _ hm).1 rfl

/-- C3: refuted on the safe variant.  On the 12x12 placement `cexCells`
(no two cells hex-adjacent, so every connection is a forced repair), the
sixth repair saturates node "1" at degree 6 and the seventh repair's
`add_edge` is silently refused: `generate_planar_graph_safe` returns a
Graph in which node "7" is isolated, so a breadth-first traversal from
node "0" never reaches it. -/
theorem safe_generator_returns_disconnected :
    ∃ res, generate_safe 12 12 8 cexCells cexOrder [] [] 20 = .ok res ∧
      "0" ∈ res.nodes ∧ "7" ∈ res.nodes ∧
      ¬ Relation.ReflTransGen (edgeAdj res.edges) "0" "7" := by
  refine ⟨⟨cexOrder, [("1", "6"), ("1", "5"), ("1", "4"), ("1", "3"), ("1", "2"), ("0", "1")],
    cexOrder.zip cexCells⟩, by rfl, by decide, by decide,
    no_reach_of_no_incident _ _ _ (by decide) (by decide)⟩

/-- A successful `rev.get` returns one of the stored labels. -/
theorem revGet_some_snd_mem (revL : List (Cell × Label)) (p : Cell) (n : Label)
    (h : revGet revL p = some n) : n ∈ revL.map Prod.snd := by
  induction revL with
  | nil => simp [revGet] at h
  | cons q rest ih =>
      obtain ⟨qc, qn⟩ := q
      unfold revGet at h
      split at h
      · cases h
        simp
      · exact List.mem_cons_of_mem _ (ih h)

/-- C2: for every canonical hex-adjacent cell pair, the synthesized
coupler-enable value is 1 iff both endpoint cells are occupied by nodes
of the graph and the canonicalised label pair is an edge; otherwise it is
0.  The hypothesis — all stored labels are non-empty strings — holds for
every generated graph, whose labels are `str(0)`, `str(1)`, …, so the
truthiness test `if u and v and …` cannot misfire, not even on the label
`"0"`. -/
theorem coupler_enable_iff (rows cols : Nat) (revL : List (Cell × Label))
    (E : List (Label × Label))
    (hlab : ∀ n ∈ revL.map Prod.snd, n.isEmpty = false) :
    ∀ pq ∈ coupler_pairs rows cols,
      (coupler_on revL E pq.1 pq.2 = 1 ↔
        ∃ u v, revGet revL pq.1 = some u ∧ revGet revL pq.2 = some v ∧
          sortPair u v ∈ E) ∧
      (coupler_on revL E pq.1 pq.2 = 1 ∨ coupler_on revL E pq.1 pq.2 = 0) := by
  intro pq _
  rcases hu : revGet revL pq.1 with _ | u
  · constructor
    · simp [coupler_on, hu]
    · simp [coupler_on, hu]
  · rcases hv : revGet revL pq.2 with _ | v
    · constructor
      · simp [coupler_on, hu, hv]
      · simp [coupler_on, hu, hv]
    · have hue : u.isEmpty = false := hlab u (revGet_some_snd_mem _ _ _ hu)
      have hve : v.isEmpty = false := hlab v (revGet_some_snd_mem _ _ _ hv)
      constructor
      · constructor
        · intro h1
          refine ⟨u, v, rfl, rfl, ?_⟩
          by_contra hmem
          simp [coupler_on, hu, hv, hue, hve, hmem] at h1
        · rintro ⟨u2, v2, hu2, hv2, hmem⟩
          cases hu2
          cases hv2
          simp [coupler_on, hu, hv, hue, hve, hmem]
      · by_cases hmem : sortPair u v ∈ E <;>
          simp [coupler_on, hu, hv, hue, hve, hmem]

/-- Witness for C2 on a 1x2 grid: cells (0,0) and (0,1) occupied by nodes
"0" and "1" joined by an edge, so the pair enable is 1 — in particular
the label "0" does not defeat the truthiness test. -/
theorem coupler_enable_iff_witness :
    (∀ n ∈ [(((0 : Int), (0 : Int)), ("0" : Label)),
        (((0 : Int), (1 : Int)), "1")].map Prod.snd, n.isEmpty = false) ∧
    ((((0 : Int), (0 : Int)), ((0 : Int), (1 : Int))) ∈ coupler_pairs 1 2) ∧
    (coupler_on [(((0 : Int), (0 : Int)), "0"), (((0 : Int), (1 : Int)), "1")]
        [("0", "1")] ((0 : Int), (0 : Int)) ((0 : Int), (1 : Int)) = 1 ↔
      ∃ u v, revGet [(((0 : Int), (0 : Int)), "0"), (((0 : Int), (1 : Int)), "1")]
          ((0 : Int), (0 : Int)) = some u ∧
        revGet [(((0 : Int), (0 : Int)), "0"), (((0 : Int), (1 : Int)), "1")]
          ((0 : Int), (1 : Int)) = some v ∧
        sortPair u v ∈ [("0", "1")]) :=
  ⟨by decide, by decide,
    (coupler_enable_iff 1 2 [(((0 : Int), (0 : Int)), "0"), (((0 : Int), (1 : Int)), "1")]
      [("0", "1")] (by decide) (((0 : Int), (0 : Int)), ((0 : Int), (1 : Int)))
      (by decide)).1⟩

/-- The RO-enable loops visit exactly `rows * cols` cells. -/
theorem gridCells_length (rows cols : Nat) :
    (gridCells rows cols).length = rows * cols := by
  induction rows with
  | zero => simp [gridCells]
  | succ n ih =>
      unfold gridCells at ih ⊢
      rw [List.range_succ, List.flatMap_append, List.length_append, ih]
      simp [Nat.succ_mul]

/-- C7 (amended): the `11x11_imp` testbench writer emits, for each of the
`rows * cols` grid cells, the value 1 iff some node of the graph occupies
that cell and 0 otherwise; the `planar.py` and
`planar_graph_tool_with_testbench.py` writers also emit a value for every
grid cell but drive the constant 1 regardless of occupancy. -/
theorem ro_enable_values (rows cols : Nat) (revL : List (Cell × Label))
    (nodes : List Label) :
    ((ro_enables_impl rows cols revL nodes).length = rows * cols ∧
      ∀ p v, (p, v) ∈ ro_enables_impl rows cols revL nodes →
        (v = 1 ↔ ∃ n, revGet revL p = some n ∧ n ∈ nodes)) ∧
    ((ro_enables_main rows cols).length = rows * cols ∧
      ∀ p v, (p, v) ∈ ro_enables_main rows cols → v = 1) := by
  refine ⟨⟨?_, ?_⟩, ?_, ?_⟩
  · simp [ro_enables_impl, gridCells_length]
  · intro p v hm
    unfold ro_enables_impl at hm
    obtain ⟨q, -, heq⟩ := List.mem_map.mp hm
    obtain ⟨rfl, rfl⟩ := Prod.mk.injEq .. ▸ heq
    rcases hg : revGet revL q with _ | n
    · simp [hg]
    · by_cases hn : n ∈ nodes <;> simp [hg, hn]
  · simp [ro_enables_main, gridCells_length]
  · intro p v hm
    unfold ro_enables_main at hm
    obtain ⟨q, -, heq⟩ := List.mem_map.mp hm
    exact (Prod.mk.injEq .. ▸ heq).2.symm

/-- Witness for C7's amended theorem: on a 1x2 grid with the single node
"0" at (0,0), the `11x11_imp` writer drives 0 at the unoccupied cell
(0,1). -/
theorem ro_enable_values_witness :
    (0 : Nat) = 1 ↔ ∃ n, revGet [(((0 : Int), (0 : Int)), ("0" : Label))]
      ((0 : Int), (1 : Int)) = some n ∧ n ∈ [("0" : Label)] :=
  (ro_enable_values 1 2 [(((0 : Int), (0 : Int)), "0")] ["0"]).1.2
    ((0 : Int), (1 : Int)) 0 (by decide)

/-- C7 counterexample: on the claim as stated.  The `planar.py` writer
emits enable value 1 at cell (0, 1) of a 1x2 grid although the graph —
one node "0" at (0, 0) — does not occupy it, so "value 1 iff occupied"
fails for that variant. -/
theorem ro_enable_always_one_cex :
    ((((0 : Int), (1 : Int)), 1) ∈ ro_enables_main 1 2) ∧
      revGet [(((0 : Int), (0 : Int)), ("0" : Label))] ((0 : Int), (1 : Int)) = none := by
  decide

/-- C9 (amended): lines in which the subcircuit tag does not occur are
skipped with `None` and no exception, and lines with enough whitespace
tokens (9 for ring instances, 4 for coupler instances) never raise; but a
line whose first token matches the instance-name pattern and that
contains the tag with fewer tokens raises `IndexError` (see the
counterexample). -/
theorem parsers_skip_malformed (line : String) :
    (strContains line "RING_OSC" = false → parse_ring_instance line = .ok none) ∧
    (strContains line "COUPLING" = false → parse_coupler_instance line = .ok none) ∧
    (9 ≤ (pySplit line).length → parse_ring_instance line ≠ .error .indexError) ∧
    (4 ≤ (pySplit line).length → parse_coupler_instance line ≠ .error .indexError) := by
  refine ⟨?_, ?_, ?_, ?_⟩
  · intro h
    unfold parse_ring_instance
    rw [if_pos h]
  · intro h
    unfold parse_coupler_instance
    rw [if_pos h]
  · intro h9
    unfold parse_ring_instance
    split
    · simp
    · split
      · rename_i hnil
        rw [hnil] at h9
        simp at h9
      · rename_i inst rest hs
        split
        · simp
        · rename_i rc hm
          have hl : 7 < rest.length := by
            rw [hs] at h9
            simp at h9
            omega
          rw [dif_pos hl]
          simp
  · intro h4
    unfold parse_coupler_instance
    split
    · simp
    · split
      · rename_i hnil
        rw [hnil] at h4
        simp at h4
      · rename_i inst rest hs
        split
        · simp
        · rename_i r hm
          rcases rest with _ | ⟨e1, rest1⟩
          · rw [hs] at h4
            simp at h4
          · rcases rest1 with _ | ⟨e2, rest2⟩
            · rw [hs] at h4
              simp at h4
            · rcases rest2 with _ | ⟨e3, rest3⟩
              · rw [hs] at h4
                simp at h4
              · simp

/-- Witness for C9's amended theorem: an enable-source line carrying
neither tag is skipped by both parsers without raising. -/
theorem parsers_skip_malformed_witness :
    parse_ring_instance "V_EN_RO_0_0 EN_RO_0_0 gnd 1" = .ok none ∧
      parse_coupler_instance "V_EN_RO_0_0 EN_RO_0_0 gnd 1" = .ok none :=
  ⟨(parsers_skip_malformed "V_EN_RO_0_0 EN_RO_0_0 gnd 1").1 (by decide),
    (parsers_skip_malformed "V_EN_RO_0_0 EN_RO_0_0 gnd 1").2.1 (by decide)⟩

/-- C9 counterexample: truncated lines that contain the tag and a
matching instance name make `tokens[8]` (resp. `tokens[2]`) raise an
`IndexError` instead of being skipped. -/
theorem truncated_tag_line_raises :
    parse_ring_instance "XRO_0_0 RING_OSC" = .error .indexError ∧
      parse_coupler_instance "XCPL_0_0__0_1 COUPLING" = .error .indexError := by
  constructor <;> rfl
